import Mathlib

/-!
Shallow embedding of `src/btc_parser.py` (classes `BtcAddressMonitoring` and
`BtcBlockMonitoring`).

JSON objects returned by the upstream API are embedded as Lean structures whose
fields are `Option`-valued: `none` models a missing key, so that a Python
`KeyError` corresponds to hitting a `none` where the code performs an unchecked
dictionary access.  The outcome of an HTTP call is `FetchResult`: either the
request itself raised (`netError`), or a response arrived with a success flag
(`response.ok` / what `raise_for_status` inspects) and a body that either
parses as JSON (`some`) or does not (`none`).

Python exception flow is embedded with `Except PyError`: a function that the
source lets an exception escape from is embedded with result type
`Except PyError _`, while a function that catches everything internally is
embedded as a total function into `Bool`.
-/

set_option autoImplicit false

namespace BtcParser

/-- Python exception kinds relevant to `btc_parser.py`: a raised
`requests.exceptions.RequestException` (connection problem or
`raise_for_status`), a `ValueError` from `response.json()`, a `KeyError`, and
an `IndexError`. -/
inductive PyError where
  | networkError
  | parseError
  | keyError
  | indexError
  deriving DecidableEq, Repr

/-- The `prev_out` object of a transaction input: `addr` and `value` keys, each
possibly absent. -/
structure PrevOut where
  addr : Option String
  value : Option Int
  deriving DecidableEq, Repr

/-- A transaction input: a `prev_out` key, possibly absent. -/
structure TxInput where
  prev_out : Option PrevOut
  deriving DecidableEq, Repr

/-- A transaction output: `addr` and `value` keys, each possibly absent. -/
structure TxOutput where
  addr : Option String
  value : Option Int
  deriving DecidableEq, Repr

/-- A transaction as observed from the API: an `inputs` key and an `out` key,
each possibly absent, each a list when present. -/
structure ApiTx where
  inputs : Option (List TxInput)
  out : Option (List TxOutput)
  deriving DecidableEq, Repr

/-- Body of the unconfirmed-transactions feed: a `txs` key, possibly absent. -/
structure UnconfirmedFeed where
  txs : Option (List ApiTx)
  deriving DecidableEq, Repr

/-- Body of the `rawaddr` address-history endpoint: a `txs` key, possibly
absent. -/
structure AddressHistory where
  txs : Option (List ApiTx)
  deriving DecidableEq, Repr

/-- Body of the `rawblock` endpoint: a `tx` key, possibly absent. -/
structure BlockData where
  tx : Option (List ApiTx)
  deriving DecidableEq, Repr

/-- Outcome of one `requests.get` call.  `netError` is a raised
`RequestException`; `response ok body` is an HTTP response with success flag
`ok` (`response.ok`, equivalently what `raise_for_status` checks) whose body
parses to `some` structured data or fails to parse (`none`, a `ValueError`
from `response.json()`). -/
inductive FetchResult (α : Type) where
  | netError : FetchResult α
  | response (ok : Bool) (body : Option α) : FetchResult α
  deriving DecidableEq, Repr

/-- The access chain `transaction['inputs'][0]['prev_out']['addr']` performed
by `is_tx_transaction_from_btc_address` on one transaction: each missing key
is a `KeyError`, an empty `inputs` list is an `IndexError`. -/
def firstInputAddr (t : ApiTx) : Except PyError String :=
  match t.inputs with
  | none => .error .keyError
  | some inputs =>
    match inputs with
    | [] => .error .indexError
    | i :: _ =>
      match i.prev_out with
      | none => .error .keyError
      | some po =>
        match po.addr with
        | none => .error .keyError
        | some a => .ok a

/-- The `for transaction in unconfirmed_transactions['txs']` loop of
`is_tx_transaction_from_btc_address`: returns `true` at the first transaction
whose first input address equals `watch`, and `false` either at the end of the
list or at the first `KeyError`/`IndexError` (which the source catches and
converts to `False`). -/
def txLoop (watch : String) : List ApiTx → Bool
  | [] => false
  | t :: ts =>
    match firstInputAddr t with
    | .error _ => false
    | .ok a => if a = watch then true else txLoop watch ts

/-- `BtcAddressMonitoring.is_tx_transaction_from_btc_address`: every fault
(network error, non-success status via `raise_for_status`, JSON parse failure,
missing `txs` key, malformed transaction) is caught and degrades to `false`. -/
def is_tx_transaction_from_btc_address (watch : String) :
    FetchResult UnconfirmedFeed → Bool
  | .netError => false
  | .response false _ => false
  | .response true none => false
  | .response true (some feed) =>
    match feed.txs with
    | none => false
    | some txs => txLoop watch txs

/-- The per-transaction output scan of `is_rx_transaction_to_btc_address`:
`'addr' in output and output['addr'] == self.watch_address` over all outputs. -/
def outputsMatch (watch : String) (outs : List TxOutput) : Bool :=
  outs.any (fun o => o.addr == some watch)

/-- The `for transaction in unconfirmed_transactions['txs']` loop of
`is_rx_transaction_to_btc_address`: a transaction without an `out` key raises
`KeyError`, which the source catches and converts to `False`; otherwise all
outputs are inspected and the loop returns `true` on the first address
match. -/
def rxLoop (watch : String) : List ApiTx → Bool
  | [] => false
  | t :: ts =>
    match t.out with
    | none => false
    | some outs => if outputsMatch watch outs then true else rxLoop watch ts

/-- `BtcAddressMonitoring.is_rx_transaction_to_btc_address`: every fault is
caught and degrades to `false`. -/
def is_rx_transaction_to_btc_address (watch : String) :
    FetchResult UnconfirmedFeed → Bool
  | .netError => false
  | .response false _ => false
  | .response true none => false
  | .response true (some feed) =>
    match feed.txs with
    | none => false
    | some txs => rxLoop watch txs

/-- A `NormalizedTransfer` / `MixCandidateRow`: (from address, to address,
amount).  The source stores these as tuples/lists appended to an instance
list. -/
abbrev Transfer := String × String × Int

/-- `from_address = tx["inputs"][0]["prev_out"]["addr"] if tx["inputs"] else None`
from `get_transactions_from_btc_address`.  An empty `inputs` list is falsy, so
the whole expression is `None`; a non-empty list performs unchecked accesses
whose `KeyError` is NOT caught by the source and propagates. -/
def extractFromAddress (inputs : List TxInput) : Except PyError (Option String) :=
  match inputs with
  | [] => .ok none
  | i :: _ =>
    match i.prev_out with
    | none => .error .keyError
    | some po =>
      match po.addr with
      | none => .error .keyError
      | some a => .ok (some a)

/-- `to_address = tx["out"][0]["addr"] if tx["out"] else None`: an empty `out`
list gives `None`; otherwise a missing `addr` key raises an uncaught
`KeyError`. -/
def extractToAddress (outs : List TxOutput) : Except PyError (Option String) :=
  match outs with
  | [] => .ok none
  | o :: _ =>
    match o.addr with
    | none => .error .keyError
    | some a => .ok (some a)

/-- `amount = tx["out"][0]["value"] if tx["out"] and "value" in tx["out"][0] else None`:
guarded by a key check, so it never raises. -/
def extractAmount (outs : List TxOutput) : Option Int :=
  match outs with
  | [] => none
  | o :: _ => o.value

/-- One iteration of the `for tx in data["txs"]` loop of
`get_transactions_from_btc_address`: the `"inputs" in tx and "out" in tx`
guard, the three extractions (in source order, each able to raise), and the
truthiness check `if from_address and to_address and amount` (`None` and the
empty string and `0` are falsy) before appending to `self.transaction_list`. -/
def historyStep (acc : List Transfer) (t : ApiTx) : Except PyError (List Transfer) :=
  match t.inputs, t.out with
  | some inputs, some outs =>
    match extractFromAddress inputs with
    | .error e => .error e
    | .ok fa =>
      match extractToAddress outs with
      | .error e => .error e
      | .ok ta =>
        match fa, ta, extractAmount outs with
        | some f, some a, some v =>
          if f ≠ "" ∧ a ≠ "" ∧ v ≠ 0 then .ok (acc ++ [(f, a, v)]) else .ok acc
        | _, _, _ => .ok acc
  | _, _ => .ok acc

/-- The full transaction loop of `get_transactions_from_btc_address`: an
uncaught exception in any iteration aborts the whole call. -/
def historyLoop (acc : List Transfer) : List ApiTx → Except PyError (List Transfer)
  | [] => .ok acc
  | t :: ts =>
    match historyStep acc t with
    | .error e => .error e
    | .ok acc2 => historyLoop acc2 ts

/-- `BtcAddressMonitoring.get_transactions_from_btc_address`.  `state` is the
instance field `self.transaction_list` accumulated by earlier calls; the
returned list is the new value of that field.  The source wraps nothing in
`try`: a raised `RequestException` propagates (`networkError`), a
`response.json()` failure propagates (`parseError`), and schema accesses
inside the loop propagate (`keyError`).  Only a non-success status is handled,
by resetting `self.transaction_list` to `[]` and returning it. -/
def get_transactions_from_btc_address (state : List Transfer) :
    FetchResult AddressHistory → Except PyError (List Transfer)
  | .netError => .error .networkError
  | .response false _ => .ok []
  | .response true none => .error .parseError
  | .response true (some data) =>
    match data.txs with
    | none => .ok state
    | some txs => historyLoop state txs

/-- The `for input_data in tx["inputs"]` loop of
`get_mixed_btc_transactions_from_btc_blocks`: appends
`input_data["prev_out"]["addr"]` to the sender list and
`input_data["prev_out"]["value"]` to the amount list; any missing key raises an
uncaught `KeyError`. -/
def scanInputs (senders : List String) (amounts : List Int) :
    List TxInput → Except PyError (List String × List Int)
  | [] => .ok (senders, amounts)
  | i :: rest =>
    match i.prev_out with
    | none => .error .keyError
    | some po =>
      match po.addr with
      | none => .error .keyError
      | some a =>
        match po.value with
        | none => .error .keyError
        | some v => scanInputs (senders ++ [a]) (amounts ++ [v]) rest

/-- The `for output_data in tx["out"]` loop: appends `output_data["addr"]` to
the recipient list; it also reads `output_data["value"]` (discarding it), so a
missing `addr` or `value` key raises an uncaught `KeyError`. -/
def scanOutputs (recipients : List String) :
    List TxOutput → Except PyError (List String)
  | [] => .ok recipients
  | o :: rest =>
    match o.addr with
    | none => .error .keyError
    | some a =>
      match o.value with
      | none => .error .keyError
      | some _ => scanOutputs (recipients ++ [a]) rest

/-- The `for tx in block_data["tx"]` loop: the CoinJoin classification
`len(tx["inputs"]) > 1 and len(tx["out"]) > 1` (short-circuit: `tx["out"]` is
only read when the first conjunct holds), then input and output accumulation
for classified transactions. -/
def scanTxs (senders recipients : List String) (amounts : List Int) :
    List ApiTx → Except PyError (List String × List String × List Int)
  | [] => .ok (senders, recipients, amounts)
  | t :: ts =>
    match t.inputs with
    | none => .error .keyError
    | some ins =>
      if 1 < ins.length then
        match t.out with
        | none => .error .keyError
        | some outs =>
          if 1 < outs.length then
            match scanInputs senders amounts ins with
            | .error e => .error e
            | .ok (s2, a2) =>
              match scanOutputs recipients outs with
              | .error e => .error e
              | .ok r2 => scanTxs s2 r2 a2 ts
          else scanTxs senders recipients amounts ts
      else scanTxs senders recipients amounts ts

/-- The `for block_num in range(...)` loop of
`get_mixed_btc_transactions_from_btc_blocks`, over the per-block fetch
outcomes of the scanned range in order.  A non-success status is silently
skipped; a raised `RequestException`, a `response.json()` failure, or a
missing `tx` key propagates uncaught. -/
def scanBlocks (senders recipients : List String) (amounts : List Int) :
    List (FetchResult BlockData) → Except PyError (List String × List String × List Int)
  | [] => .ok (senders, recipients, amounts)
  | .netError :: _ => .error .networkError
  | .response false _ :: rest => scanBlocks senders recipients amounts rest
  | .response true none :: _ => .error .parseError
  | .response true (some bd) :: rest =>
    match bd.tx with
    | none => .error .keyError
    | some txs =>
      match scanTxs senders recipients amounts txs with
      | .error e => .error e
      | .ok (s2, r2, a2) => scanBlocks s2 r2 a2 rest

/-- The pairing loop `for i in range(len(sender_addresses))`: row `i` reads
`sender_addresses[i]`, `recipient_addresses[i]` and `amounts[i]`; indexing a
shorter recipient or amount list raises an uncaught `IndexError`. -/
def pairRows : List String → List String → List Int → Except PyError (List Transfer)
  | [], _, _ => .ok []
  | _ :: _, [], _ => .error .indexError
  | _ :: _, _ :: _, [] => .error .indexError
  | s :: ss, r :: rs, v :: vs =>
    match pairRows ss rs vs with
    | .error e => .error e
    | .ok rows => .ok ((s, r, v) :: rows)

/-- `BtcBlockMonitoring.get_mixed_btc_transactions_from_btc_blocks`.  `state`
is the instance field `self.matrix` accumulated by earlier calls; `blocks` is
the list of per-block fetch outcomes for the range `[start_block, end_block]`
in ascending height order.  On success the rows of this call are appended to
`self.matrix` and the grown matrix is returned. -/
def get_mixed_btc_transactions_from_btc_blocks (state : List Transfer)
    (blocks : List (FetchResult BlockData)) : Except PyError (List Transfer) :=
  match scanBlocks [] [] [] blocks with
  | .error e => .error e
  | .ok (s, r, a) =>
    match pairRows s r a with
    | .error e => .error e
    | .ok rows => .ok (state ++ rows)

/-- Positional triple zip used to state what the pairing loop produces when no
`IndexError` occurs. -/
def zipRows : List String → List String → List Int → List Transfer
  | s :: ss, r :: rs, v :: vs => (s, r, v) :: zipRows ss rs vs
  | _, _, _ => []

deriving instance DecidableEq for Except

/-- Claim C4: a call to `get_transactions_from_btc_address` that receives a
non-success HTTP status resets the cumulative transfer list to empty and
returns the empty list, whatever the list held from prior successful calls and
whatever the response body is. -/
theorem C4_failed_fetch_resets_list (state : List Transfer)
    (body : Option AddressHistory) :
    get_transactions_from_btc_address state (.response false body) = .ok [] := rfl

/-- Claim C9: for every malformed unconfirmed feed — non-2xx status, body that
is not valid JSON, or body missing the `txs` key — both boolean operations
return `false` (they are total `Bool`-valued functions in this embedding, so
no fault escapes them). -/
theorem C9_malformed_feed_yields_false (watch : String)
    (body : Option UnconfirmedFeed) :
    is_tx_transaction_from_btc_address watch (.response false body) = false ∧
    is_tx_transaction_from_btc_address watch (.response true none) = false ∧
    is_tx_transaction_from_btc_address watch (.response true (some ⟨none⟩)) = false ∧
    is_rx_transaction_to_btc_address watch (.response false body) = false ∧
    is_rx_transaction_to_btc_address watch (.response true none) = false ∧
    is_rx_transaction_to_btc_address watch (.response true (some ⟨none⟩)) = false :=
  ⟨rfl, rfl, rfl, rfl, rfl, rfl⟩

/-- Claim C5: over a range holding one block with a single transaction having
2 inputs (addresses `X`, `Y`, amounts 10, 5) and 2 outputs (addresses `Z`,
`W`, values 14, 1), a fresh scanner returns exactly the 2 positional pairings
`(X, Z, 10)` and `(Y, W, 5)` with sender-side amounts; and a block whose only
transaction has 1 input and 2 outputs yields no rows, since mixing candidates
need more than one input and more than one output. -/
theorem C5_coinjoin_scenario :
    get_mixed_btc_transactions_from_btc_blocks []
        [.response true (some ⟨some [⟨some [⟨some ⟨some "X", some 10⟩⟩,
            ⟨some ⟨some "Y", some 5⟩⟩],
          some [⟨some "Z", some 14⟩, ⟨some "W", some 1⟩]⟩]⟩)]
      = .ok [("X", "Z", 10), ("Y", "W", 5)] ∧
    ∀ (i : TxInput) (o1 o2 : TxOutput),
      get_mixed_btc_transactions_from_btc_blocks []
          [.response true (some ⟨some [⟨some [i], some [o1, o2]⟩]⟩)] = .ok [] :=
  ⟨rfl, fun _ _ _ => rfl⟩

/-- Claim C1, counterexample: in `get_transactions_from_btc_address` the call
`response.json()` is not inside any `try` block, so a `ParseError` on a
successful-status response propagates to the caller instead of being converted
to a safe default. -/
theorem C1_counterexample :
    get_transactions_from_btc_address [] (.response true none)
      = .error .parseError := rfl

/-- Claim C1, amended: the catch-at-the-boundary policy holds only for the two
boolean operations, where network faults, bad statuses, parse failures and
schema faults all degrade to `false`.  In `get_transactions_from_btc_address`
only a non-success status is handled (reset and return empty); network, parse
and schema faults propagate.  In `get_mixed_btc_transactions_from_btc_blocks`
only a per-block non-success status is skipped; network, parse and schema
faults propagate. -/
theorem C1_amended_fault_policy :
    (∀ (watch : String) (b : Option UnconfirmedFeed),
      is_tx_transaction_from_btc_address watch .netError = false ∧
      is_tx_transaction_from_btc_address watch (.response false b) = false ∧
      is_tx_transaction_from_btc_address watch (.response true none) = false ∧
      is_tx_transaction_from_btc_address watch
        (.response true (some ⟨some [⟨none, none⟩]⟩)) = false ∧
      is_rx_transaction_to_btc_address watch .netError = false ∧
      is_rx_transaction_to_btc_address watch (.response false b) = false ∧
      is_rx_transaction_to_btc_address watch (.response true none) = false ∧
      is_rx_transaction_to_btc_address watch
        (.response true (some ⟨some [⟨none, none⟩]⟩)) = false) ∧
    (∀ (st : List Transfer) (b : Option AddressHistory)
        (outs : List TxOutput) (ts : List ApiTx),
      get_transactions_from_btc_address st .netError = .error .networkError ∧
      get_transactions_from_btc_address st (.response false b) = .ok [] ∧
      get_transactions_from_btc_address st (.response true none)
        = .error .parseError ∧
      get_transactions_from_btc_address st
          (.response true (some ⟨some (⟨some [⟨none⟩], some outs⟩ :: ts)⟩))
        = .error .keyError) ∧
    (∀ (st : List Transfer) (b : Option BlockData)
        (rest : List (FetchResult BlockData)),
      get_mixed_btc_transactions_from_btc_blocks st (.netError :: rest)
        = .error .networkError ∧
      get_mixed_btc_transactions_from_btc_blocks st (.response false b :: rest)
        = get_mixed_btc_transactions_from_btc_blocks st rest ∧
      get_mixed_btc_transactions_from_btc_blocks st (.response true none :: rest)
        = .error .parseError ∧
      get_mixed_btc_transactions_from_btc_blocks st
          (.response true (some ⟨none⟩) :: rest) = .error .keyError) :=
  ⟨fun _ _ => ⟨rfl, rfl, rfl, rfl, rfl, rfl, rfl, rfl⟩,
   fun _ _ _ _ => ⟨rfl, rfl, rfl, rfl⟩,
   fun _ _ _ => ⟨rfl, rfl, rfl, rfl⟩⟩

/-- `scanInputs` grows the sender and amount lists in lockstep: if they start
with equal lengths they end with equal lengths. -/
theorem scanInputs_length (ins : List TxInput) :
    ∀ (se s2 : List String) (am a2 : List Int),
      scanInputs se am ins = .ok (s2, a2) → se.length = am.length →
      s2.length = a2.length := by
  induction ins with
  | nil =>
    intro se s2 am a2 h hl
    simp only [scanInputs, Except.ok.injEq, Prod.mk.injEq] at h
    rw [← h.1, ← h.2]; exact hl
  | cons i rest ih =>
    intro se s2 am a2 h hl
    rw [scanInputs] at h
    split at h
    · exact absurd h (by simp)
    · split at h
      · exact absurd h (by simp)
      · split at h
        · exact absurd h (by simp)
        · exact ih _ _ _ _ h (by simp [hl])

/-- `scanTxs` preserves equality of the sender and amount list lengths. -/
theorem scanTxs_length (txs : List ApiTx) :
    ∀ (se re s2 r2 : List String) (am a2 : List Int),
      scanTxs se re am txs = .ok (s2, r2, a2) → se.length = am.length →
      s2.length = a2.length := by
  induction txs with
  | nil =>
    intro se re s2 r2 am a2 h hl
    simp only [scanTxs, Except.ok.injEq, Prod.mk.injEq] at h
    rw [← h.1, ← h.2.2]; exact hl
  | cons t rest ih =>
    intro se re s2 r2 am a2 h hl
    rw [scanTxs] at h
    split at h
    · exact absurd h (by simp)
    · split at h
      · split at h
        · exact absurd h (by simp)
        · split at h
          · split at h
            · exact absurd h (by simp)
            · rename_i se2 a2' hsi
              split at h
              · exact absurd h (by simp)
              · exact ih _ _ _ _ _ _ h (scanInputs_length _ _ _ _ _ hsi hl)
          · exact ih _ _ _ _ _ _ h hl
      · exact ih _ _ _ _ _ _ h hl

/-- `scanBlocks` preserves equality of the sender and amount list lengths. -/
theorem scanBlocks_length (blocks : List (FetchResult BlockData)) :
    ∀ (se re s2 r2 : List String) (am a2 : List Int),
      scanBlocks se re am blocks = .ok (s2, r2, a2) → se.length = am.length →
      s2.length = a2.length := by
  induction blocks with
  | nil =>
    intro se re s2 r2 am a2 h hl
    simp only [scanBlocks, Except.ok.injEq, Prod.mk.injEq] at h
    rw [← h.1, ← h.2.2]; exact hl
  | cons blk rest ih =>
    intro se re s2 r2 am a2 h hl
    match blk with
    | .netError => exact absurd h (by simp [scanBlocks])
    | .response false b => exact ih _ _ _ _ _ _ h hl
    | .response true none => exact absurd h (by simp [scanBlocks])
    | .response true (some bd) =>
      rw [scanBlocks] at h
      split at h
      · exact absurd h (by simp)
      · split at h
        · exact absurd h (by simp)
        · rename_i s2' r2' a2' hst
          exact ih _ _ _ _ _ _ h (scanTxs_length _ _ _ _ _ _ _ hst hl)

/-- When the sender list is no longer than the recipient and amount lists, the
pairing loop completes without an `IndexError` and produces the positional
zip. -/
theorem pairRows_ok (s : List String) :
    ∀ (r : List String) (v : List Int), s.length ≤ r.length →
      s.length ≤ v.length → pairRows s r v = .ok (zipRows s r v) := by
  induction s with
  | nil => intro r v _ _; rfl
  | cons x ss ih =>
    intro r v hr hv
    match r, v with
    | [], _ => simp at hr
    | _ :: _, [] => simp at hv
    | y :: rs, z :: vs =>
      rw [pairRows, ih rs vs (by simpa using hr) (by simpa using hv), zipRows]

/-- When the recipient or amount list is strictly shorter than the sender
list, the pairing loop raises an `IndexError`. -/
theorem pairRows_indexError (s : List String) :
    ∀ (r : List String) (v : List Int), min r.length v.length < s.length →
      pairRows s r v = .error .indexError := by
  induction s with
  | nil => intro r v h; simp at h
  | cons x ss ih =>
    intro r v h
    match r, v with
    | [], _ => rfl
    | _ :: _, [] => rfl
    | y :: rs, z :: vs =>
      rw [pairRows, ih rs vs (by simp only [List.length_cons] at h; omega)]

/-- Length of the positional zip. -/
theorem zipRows_length (s : List String) :
    ∀ (r : List String) (v : List Int),
      (zipRows s r v).length = min s.length (min r.length v.length) := by
  induction s with
  | nil => intro r v; simp [zipRows]
  | cons x ss ih =>
    intro r v
    match r, v with
    | [], _ => simp [zipRows]
    | _ :: _, [] => simp [zipRows]
    | y :: rs, z :: vs =>
      simp only [zipRows, List.length_cons, ih rs vs]
      omega

/-- Claim C2, counterexample: a range with one block holding a transaction
with 3 inputs and 2 outputs makes the pairing loop index the shorter recipient
list out of bounds: the call raises `IndexError` instead of truncating to
`min` rows. -/
theorem C2_counterexample :
    get_mixed_btc_transactions_from_btc_blocks []
        [.response true (some ⟨some [⟨some [⟨some ⟨some "A", some 1⟩⟩,
            ⟨some ⟨some "B", some 2⟩⟩, ⟨some ⟨some "C", some 3⟩⟩],
          some [⟨some "D", some 4⟩, ⟨some "E", some 5⟩]⟩]⟩)]
      = .error .indexError := rfl

/-- Claim C2, amended: the scanner pairs the i-th sender with the i-th
recipient positionally.  When the sender list is no longer than the recipient
list the call emits exactly `min` (= sender count) rows; when the sender list
is strictly longer, the pairing loop indexes the recipient list out of bounds
and the call raises `IndexError` instead of truncating. -/
theorem C2_amended_positional_pairing (blocks : List (FetchResult BlockData))
    (state : List Transfer) (s r : List String) (v : List Int)
    (hscan : scanBlocks [] [] [] blocks = .ok (s, r, v)) :
    (s.length ≤ r.length →
      get_mixed_btc_transactions_from_btc_blocks state blocks
          = .ok (state ++ zipRows s r v) ∧
      (zipRows s r v).length = min s.length r.length) ∧
    (r.length < s.length →
      get_mixed_btc_transactions_from_btc_blocks state blocks
          = .error .indexError) := by
  have hlen : s.length = v.length := scanBlocks_length blocks [] [] s r [] v hscan rfl
  constructor
  · intro hle
    have hpair := pairRows_ok s r v hle (by omega)
    constructor
    · simp [get_mixed_btc_transactions_from_btc_blocks, hscan, hpair]
    · rw [zipRows_length]; omega
  · intro hlt
    have hpair := pairRows_indexError s r v (by omega)
    simp [get_mixed_btc_transactions_from_btc_blocks, hscan, hpair]

/-- Witness for C2: the 2-input / 2-output block from §8 has senders
`[X, Y]`, recipients `[Z, W]`, amounts `[10, 5]`; the amended theorem applied
there yields the two positionally paired rows. -/
theorem C2_amended_positional_pairing_witness :
    get_mixed_btc_transactions_from_btc_blocks []
        [.response true (some ⟨some [⟨some [⟨some ⟨some "X", some 10⟩⟩,
            ⟨some ⟨some "Y", some 5⟩⟩],
          some [⟨some "Z", some 14⟩, ⟨some "W", some 1⟩]⟩]⟩)]
        = .ok ([] ++ zipRows ["X", "Y"] ["Z", "W"] [10, 5]) ∧
    (zipRows ["X", "Y"] ["Z", "W"] [10, 5]).length
        = min (["X", "Y"] : List String).length (["Z", "W"] : List String).length :=
  (C2_amended_positional_pairing
      [.response true (some ⟨some [⟨some [⟨some ⟨some "X", some 10⟩⟩,
          ⟨some ⟨some "Y", some 5⟩⟩],
        some [⟨some "Z", some 14⟩, ⟨some "W", some 1⟩]⟩]⟩)]
      [] ["X", "Y"] ["Z", "W"] [10, 5] rfl).1 (by decide)

/-- A transfer appended by one iteration of the history loop passes the
truthiness guard: it is either carried over or has non-empty addresses and a
non-zero amount. -/
theorem historyStep_sound (acc acc2 : List Transfer) (t : ApiTx)
    (h : historyStep acc t = .ok acc2) :
    ∀ x ∈ acc2, x ∈ acc ∨ (x.1 ≠ "" ∧ x.2.1 ≠ "" ∧ x.2.2 ≠ 0) := by
  rw [historyStep] at h
  split at h
  · split at h
    · exact absurd h (by simp)
    · split at h
      · exact absurd h (by simp)
      · split at h
        · rename_i f a v _ _ _ _ _
          split at h
          · rename_i hguard
            intro x hx
            rw [← Except.ok.inj h] at hx
            rcases List.mem_append.mp hx with hl | hr
            · exact Or.inl hl
            · rw [List.mem_singleton.mp hr]
              exact Or.inr hguard
          · intro x hx
            rw [Except.ok.inj h.symm] at hx
            exact Or.inl hx
        · intro x hx
          rw [Except.ok.inj h.symm] at hx
          exact Or.inl hx
  · intro x hx
    rw [Except.ok.inj h.symm] at hx
    exact Or.inl hx

/-- Transfers produced by the full history loop either come from the starting
accumulator or satisfy the non-empty / non-zero guard. -/
theorem historyLoop_sound (txs : List ApiTx) :
    ∀ (acc l : List Transfer), historyLoop acc txs = .ok l →
      ∀ x ∈ l, x ∈ acc ∨ (x.1 ≠ "" ∧ x.2.1 ≠ "" ∧ x.2.2 ≠ 0) := by
  induction txs with
  | nil =>
    intro acc l h x hx
    rw [historyLoop] at h
    rw [← Except.ok.inj h] at hx
    exact Or.inl hx
  | cons t rest ih =>
    intro acc l h x hx
    rw [historyLoop] at h
    split at h
    · exact absurd h (by simp)
    · rename_i acc2 hstep
      rcases ih acc2 l h x hx with hmem | hgood
      · exact historyStep_sound acc acc2 t hstep x hmem
      · exact Or.inr hgood

/-- Claim C3, counterexample: the block scanner performs no non-empty /
non-zero checks, so a mixing-candidate transaction whose first input has
amount `0` and whose first output has an empty address yields an emitted
`MixCandidateRow` with an empty recipient address and a zero amount. -/
theorem C3_counterexample :
    get_mixed_btc_transactions_from_btc_blocks []
        [.response true (some ⟨some [⟨some [⟨some ⟨some "A", some 0⟩⟩,
            ⟨some ⟨some "B", some 5⟩⟩],
          some [⟨some "", some 3⟩, ⟨some "D", some 2⟩]⟩]⟩)]
      = .ok [("A", "", 0), ("B", "D", 5)] ∧
    ¬ (∀ x ∈ [("A", "", (0 : Int)), ("B", "D", (5 : Int))],
        x.2.1 ≠ "" ∧ x.2.2 ≠ 0) :=
  ⟨rfl, by decide⟩

/-- Claim C3, amended: the invariant holds for `NormalizedTransfer`s — every
transfer in a successful result of `get_transactions_from_btc_address` whose
carried-over entries already satisfy it has non-empty sender and recipient
addresses and a non-zero amount.  `MixCandidateRow`s carry all three fields
but the scanner never checks them for emptiness or zero. -/
theorem C3_amended_transfer_invariant (state : List Transfer)
    (res : FetchResult AddressHistory) (l : List Transfer)
    (hstate : ∀ x ∈ state, x.1 ≠ "" ∧ x.2.1 ≠ "" ∧ x.2.2 ≠ 0)
    (h : get_transactions_from_btc_address state res = .ok l) :
    ∀ x ∈ l, x.1 ≠ "" ∧ x.2.1 ≠ "" ∧ x.2.2 ≠ 0 := by
  match res with
  | .netError => exact absurd h (by simp [get_transactions_from_btc_address])
  | .response false b =>
    have h2 : (Except.ok [] : Except PyError (List Transfer)) = .ok l := h
    intro x hx
    rw [← Except.ok.inj h2] at hx
    simp at hx
  | .response true none =>
    exact absurd h (by simp [get_transactions_from_btc_address])
  | .response true (some data) =>
    obtain ⟨dtxs⟩ := data
    match dtxs with
    | none =>
      have h2 : (Except.ok state : Except PyError (List Transfer)) = .ok l := h
      intro x hx
      rw [← Except.ok.inj h2] at hx
      exact hstate x hx
    | some txs =>
      have h2 : historyLoop state txs = .ok l := h
      intro x hx
      rcases historyLoop_sound txs state l h2 x hx with hmem | hgood
      · exact hstate x hmem
      · exact hgood

/-- Witness for C3: a fresh monitor, one valid transaction from `"A"` to
`"B"` with value `7`; the amended theorem applied there certifies the emitted
transfer. -/
theorem C3_amended_transfer_invariant_witness :
    ("A", "B", (7 : Int)).1 ≠ "" ∧ ("A", "B", (7 : Int)).2.1 ≠ "" ∧
      ("A", "B", (7 : Int)).2.2 ≠ 0 :=
  C3_amended_transfer_invariant []
    (.response true (some ⟨some [⟨some [⟨some ⟨some "A", none⟩⟩],
      some [⟨some "B", some 7⟩]⟩]⟩))
    [("A", "B", 7)] (by simp) rfl ("A", "B", 7) (by simp)

/-- If every transaction before `t` has a well-formed first-input address and
`t`'s first-input address equals the watched address, the Tx loop reaches `t`
and returns `true`. -/
theorem txLoop_match (watch : String) (txs1 : List ApiTx) :
    ∀ (t : ApiTx) (txs2 : List ApiTx),
      (∀ t2 ∈ txs1, ∃ a, firstInputAddr t2 = .ok a) →
      firstInputAddr t = .ok watch →
      txLoop watch (txs1 ++ t :: txs2) = true := by
  induction txs1 with
  | nil =>
    intro t txs2 _ ht
    simp [txLoop, ht]
  | cons t2 rest ih =>
    intro t txs2 hwf ht
    obtain ⟨a, ha⟩ := hwf t2 (List.mem_cons_self _ _)
    by_cases haw : a = watch
    · simp [txLoop, ha, haw]
    · simp only [List.cons_append, txLoop, ha, if_neg haw]
      exact ih t txs2 (fun x hx => hwf x (List.mem_cons_of_mem _ hx)) ht

/-- If no transaction's first-input address resolves to the watched address,
the Tx loop returns `false` (either by exhausting the list or by hitting a
caught schema fault). -/
theorem txLoop_no_match (watch : String) (txs : List ApiTx) :
    (∀ t ∈ txs, firstInputAddr t ≠ .ok watch) → txLoop watch txs = false := by
  induction txs with
  | nil => intro _; rfl
  | cons t rest ih =>
    intro h
    rw [txLoop]
    split
    · rfl
    · rename_i a hfa
      have hne : a ≠ watch := by
        intro haw
        exact h t (List.mem_cons_self _ _) (by rw [← haw]; exact hfa)
      rw [if_neg hne]
      exact ih (fun x hx => h x (List.mem_cons_of_mem _ hx))

/-- Claim C6, counterexample: the feed holds a transaction whose first-input
address equals the watched address `"W"`, yet because an earlier transaction
is missing its `inputs` key the caught `KeyError` makes the operation return
`false` — the match is not found "regardless of other transactions'
content". -/
theorem C6_counterexample :
    firstInputAddr ⟨some [⟨some ⟨some "W", none⟩⟩], none⟩ = .ok "W" ∧
    is_tx_transaction_from_btc_address "W"
        (.response true (some ⟨some [⟨none, none⟩,
          ⟨some [⟨some ⟨some "W", none⟩⟩], none⟩]⟩)) = false :=
  ⟨rfl, rfl⟩

/-- Claim C6, amended: if some transaction's first-input address equals the
watched address and every transaction before it has a well-formed first-input
address, the operation returns `true`; if no transaction's first-input address
equals the watched address, it returns `false`. -/
theorem C6_amended_first_input_match :
    (∀ (watch : String) (txs1 : List ApiTx) (t : ApiTx) (txs2 : List ApiTx),
      (∀ t2 ∈ txs1, ∃ a, firstInputAddr t2 = .ok a) →
      firstInputAddr t = .ok watch →
      is_tx_transaction_from_btc_address watch
        (.response true (some ⟨some (txs1 ++ t :: txs2)⟩)) = true) ∧
    (∀ (watch : String) (txs : List ApiTx),
      (∀ t ∈ txs, firstInputAddr t ≠ .ok watch) →
      is_tx_transaction_from_btc_address watch
        (.response true (some ⟨some txs⟩)) = false) :=
  ⟨fun watch txs1 t txs2 hwf ht => txLoop_match watch txs1 t txs2 hwf ht,
   fun watch txs h => txLoop_no_match watch txs h⟩

/-- Witness for C6: a well-formed match in second position returns `true`; a
feed whose only transaction spends from `"Q"` returns `false` for watched
address `"W"`. -/
theorem C6_amended_first_input_match_witness :
    is_tx_transaction_from_btc_address "W"
        (.response true (some ⟨some ([⟨some [⟨some ⟨some "Q", none⟩⟩], none⟩] ++
          ⟨some [⟨some ⟨some "W", none⟩⟩], none⟩ :: [])⟩)) = true ∧
    is_tx_transaction_from_btc_address "W"
        (.response true (some ⟨some [⟨some [⟨some ⟨some "Q", none⟩⟩], none⟩]⟩)) = false :=
  ⟨C6_amended_first_input_match.1 "W" [⟨some [⟨some ⟨some "Q", none⟩⟩], none⟩] _ []
      (by intro t2 ht2; rw [List.mem_singleton] at ht2; subst ht2; exact ⟨"Q", rfl⟩) rfl,
   C6_amended_first_input_match.2 "W" [⟨some [⟨some ⟨some "Q", none⟩⟩], none⟩]
      (by decide)⟩

/-- If every transaction before the matching one has an `out` list and some
output of the matching transaction carries the watched address, the Rx loop
returns `true`. -/
theorem rxLoop_match (watch : String) (txs1 : List ApiTx) :
    ∀ (ip : Option (List TxInput)) (outs : List TxOutput) (txs2 : List ApiTx),
      (∀ t2 ∈ txs1, t2.out ≠ none) →
      outputsMatch watch outs = true →
      rxLoop watch (txs1 ++ ⟨ip, some outs⟩ :: txs2) = true := by
  induction txs1 with
  | nil =>
    intro ip outs txs2 _ hm
    simp [rxLoop, hm]
  | cons t2 rest ih =>
    intro ip outs txs2 hwf hm
    match ho : t2.out with
    | none => exact absurd ho (hwf t2 (List.mem_cons_self _ _))
    | some os =>
      by_cases hmo : outputsMatch watch os
      · simp [rxLoop, ho, hmo]
      · simp only [List.cons_append, rxLoop, ho, if_neg hmo]
        exact ih ip outs txs2 (fun x hx => hwf x (List.mem_cons_of_mem _ hx)) hm

/-- Claim C7, counterexample: the feed holds a transaction with an output paid
to the watched address `"W"`, yet because an earlier transaction is missing
its `out` key the caught `KeyError` makes the operation return `false`. -/
theorem C7_counterexample :
    outputsMatch "W" [⟨some "W", some 3⟩] = true ∧
    is_rx_transaction_to_btc_address "W"
        (.response true (some ⟨some [⟨none, none⟩,
          ⟨none, some [⟨some "W", some 3⟩]⟩]⟩)) = false :=
  ⟨rfl, rfl⟩

/-- Claim C7, amended: if some transaction has an output (at any index) whose
address equals the watched address, and every transaction before it has an
`out` list, the operation returns `true`. -/
theorem C7_amended_any_output_match (watch : String) (txs1 : List ApiTx)
    (ip : Option (List TxInput)) (outs : List TxOutput) (txs2 : List ApiTx)
    (hwf : ∀ t2 ∈ txs1, t2.out ≠ none)
    (hm : outputsMatch watch outs = true) :
    is_rx_transaction_to_btc_address watch
        (.response true (some ⟨some (txs1 ++ ⟨ip, some outs⟩ :: txs2)⟩)) = true :=
  rxLoop_match watch txs1 ip outs txs2 hwf hm

/-- Witness for C7: a match at the second output of the second transaction,
after a well-formed non-matching transaction. -/
theorem C7_amended_any_output_match_witness :
    is_rx_transaction_to_btc_address "W"
        (.response true (some ⟨some ([⟨none, some []⟩] ++
          ⟨none, some [⟨some "Q", some 2⟩, ⟨some "W", some 1⟩]⟩ :: [])⟩)) = true :=
  C7_amended_any_output_match "W" [⟨none, some []⟩] none
    [⟨some "Q", some 2⟩, ⟨some "W", some 1⟩] [] (by decide) (by decide)

/-- Claim C8: on a fresh monitor, a successful response carrying 3 valid
transactions yields exactly 3 transfers, each built from that transaction's
first input address and first output address and value only (later inputs and
outputs are ignored); and any transaction missing the `inputs` key or the
`out` key is skipped entirely by the loop. -/
theorem C8_history_three_valid (f1 a1 f2 a2 f3 a3 : String) (v1 v2 v3 : Int)
    (w1 w2 w3 : Option Int) (ri1 ri2 ri3 : List TxInput)
    (ro1 ro2 ro3 : List TxOutput)
    (hf1 : f1 ≠ "") (ha1 : a1 ≠ "") (hv1 : v1 ≠ 0)
    (hf2 : f2 ≠ "") (ha2 : a2 ≠ "") (hv2 : v2 ≠ 0)
    (hf3 : f3 ≠ "") (ha3 : a3 ≠ "") (hv3 : v3 ≠ 0) :
    get_transactions_from_btc_address []
        (.response true (some ⟨some
          [⟨some (⟨some ⟨some f1, w1⟩⟩ :: ri1), some (⟨some a1, some v1⟩ :: ro1)⟩,
           ⟨some (⟨some ⟨some f2, w2⟩⟩ :: ri2), some (⟨some a2, some v2⟩ :: ro2)⟩,
           ⟨some (⟨some ⟨some f3, w3⟩⟩ :: ri3), some (⟨some a3, some v3⟩ :: ro3)⟩]⟩))
      = .ok [(f1, a1, v1), (f2, a2, v2), (f3, a3, v3)] ∧
    (∀ (acc : List Transfer) (o : Option (List TxOutput)) (ts : List ApiTx),
      historyLoop acc (⟨none, o⟩ :: ts) = historyLoop acc ts) ∧
    (∀ (acc : List Transfer) (ins : Option (List TxInput)) (ts : List ApiTx),
      historyLoop acc (⟨ins, none⟩ :: ts) = historyLoop acc ts) := by
  refine ⟨?_, ?_, ?_⟩
  · show historyLoop [] _ = _
    simp [historyLoop, historyStep, extractFromAddress, extractToAddress,
      extractAmount, hf1, ha1, hv1, hf2, ha2, hv2, hf3, ha3, hv3]
  · intro acc o ts
    cases o <;> rfl
  · intro acc ins ts
    cases ins <;> rfl

/-- Witness for C8: three concrete valid transactions produce the three
first-input/first-output transfers. -/
theorem C8_history_three_valid_witness :
    get_transactions_from_btc_address []
        (.response true (some ⟨some
          [⟨some [⟨some ⟨some "A", none⟩⟩], some [⟨some "B", some 7⟩]⟩,
           ⟨some [⟨some ⟨some "C", none⟩⟩], some [⟨some "D", some 8⟩]⟩,
           ⟨some [⟨some ⟨some "E", none⟩⟩], some [⟨some "F", some 9⟩]⟩]⟩))
      = .ok [("A", "B", 7), ("C", "D", 8), ("E", "F", 9)] :=
  (C8_history_three_valid "A" "B" "C" "D" "E" "F" 7 8 9 none none none [] [] []
    [] [] [] (by decide) (by decide) (by decide) (by decide) (by decide)
    (by decide) (by decide) (by decide) (by decide)).1

/-- Claim C10: an output lacking the `addr` field is silently skipped by
`is_rx_transaction_to_btc_address` — deleting such an output from anywhere in
the feed does not change the operation's result, so it neither triggers the
degrade-to-false path nor prevents a later output from matching. -/
theorem C10_rx_skips_addrless_output (watch : String) (txs1 txs2 : List ApiTx)
    (ip : Option (List TxInput)) (outs1 outs2 : List TxOutput)
    (v : Option Int) :
    is_rx_transaction_to_btc_address watch
        (.response true (some ⟨some
          (txs1 ++ ⟨ip, some (outs1 ++ ⟨none, v⟩ :: outs2)⟩ :: txs2)⟩))
      = is_rx_transaction_to_btc_address watch
        (.response true (some ⟨some (txs1 ++ ⟨ip, some (outs1 ++ outs2)⟩ :: txs2)⟩)) := by
  show rxLoop watch _ = rxLoop watch _
  induction txs1 with
  | nil =>
    simp [rxLoop, outputsMatch, List.any_append, List.any_cons,
      show ((none : Option String) == some watch) = false from rfl]
  | cons t2 rest ih =>
    match ho : t2.out with
    | none => simp [rxLoop, ho]
    | some os =>
      by_cases hmo : outputsMatch watch os
      · simp [rxLoop, ho, hmo]
      · simp only [List.cons_append, rxLoop, ho, if_neg hmo]
        exact ih

end BtcParser
